import Mathlib

/-!
Verification of the FX-HFT-Effects-on-US-Macro-Data notebook core.

The repository's executable content is four functions in the notebook:
`yf_get_fx_data`, `polygon_get_fx_data`, `fetch_fred_data` (the two Market
Data Normalizer variants and the Macro Series Normalizer) and
`calculate_volatility` (the Volatility Feature Extractor).  This file gives a
shallow embedding of those functions and proves/refutes the specification
claims about them.

Modelling conventions:
- pandas/NumPy float scalars are modelled by `PVal` (NaN, plus/minus
  infinity, or a finite real); NaN is the only "null"/NA value, matching
  `pandas.isna`.
- a `pandas.DataFrame` is modelled by `Frame`: an index (a list of integer
  timestamps) plus an ordered list of named columns.
- network calls cannot be modelled, so each boundary function takes the
  vendor-call outcome (`Except` an exception message, or the raw response)
  as an argument; the `try/except` of the source becomes a `match` on an
  `Except` value, and `print` diagnostics are collected in a message list.
-/

/-- Pandas/NumPy scalar value: NaN, +inf, -inf, or a finite real.  Only NaN
counts as missing (`isna`); infinities are not NA, matching pandas. -/
inductive PVal where
  | nan : PVal
  | pinf : PVal
  | ninf : PVal
  | val : ℝ → PVal

/-- Pandas `isna` on a scalar: true exactly for NaN. -/
def PVal.isNA : PVal → Bool
  | .nan => true
  | _ => false

/-- IEEE-style division as performed by pandas/NumPy on float values:
NaN propagates; x/0 is a signed infinity for x nonzero and NaN for 0/0;
finite/inf is 0; inf/inf is NaN. -/
noncomputable def PVal.div : PVal → PVal → PVal
  | .nan, _ => .nan
  | _, .nan => .nan
  | .val a, .val b =>
      if b = 0 then (if a > 0 then .pinf else if a < 0 then .ninf else .nan)
      else .val (a / b)
  | .val _, .pinf => .val 0
  | .val _, .ninf => .val 0
  | .pinf, .val b => if b < 0 then .ninf else .pinf
  | .ninf, .val b => if b < 0 then .pinf else .ninf
  | .pinf, .pinf => .nan
  | .pinf, .ninf => .nan
  | .ninf, .pinf => .nan
  | .ninf, .ninf => .nan

/-- IEEE-style addition (used to model the summation inside a pandas mean). -/
noncomputable def PVal.add : PVal → PVal → PVal
  | .nan, _ => .nan
  | .val _, .nan => .nan
  | .pinf, .nan => .nan
  | .ninf, .nan => .nan
  | .val a, .val b => .val (a + b)
  | .pinf, .pinf => .pinf
  | .ninf, .ninf => .ninf
  | .pinf, .ninf => .nan
  | .ninf, .pinf => .nan
  | .pinf, .val _ => .pinf
  | .val _, .pinf => .pinf
  | .ninf, .val _ => .ninf
  | .val _, .ninf => .ninf

/-- NumPy natural logarithm on a float scalar: `log` of a positive real,
`-inf` at 0, NaN on negatives, NaN and infinities propagate IEEE-style. -/
noncomputable def nplog : PVal → PVal
  | .nan => .nan
  | .pinf => .pinf
  | .ninf => .nan
  | .val r => if r > 0 then .val (Real.log r) else if r = 0 then .ninf else .nan

/-- NumPy absolute value on a float scalar. -/
def PVal.pabs : PVal → PVal
  | .nan => .nan
  | .pinf => .pinf
  | .ninf => .pinf
  | .val r => .val |r|

/-- Pandas `Series.mean` with the default `skipna=True`: NaN entries are
dropped, the mean of an empty list is NaN. -/
noncomputable def pmean (xs : List PVal) : PVal :=
  let ys := xs.filter (fun x => !x.isNA)
  if ys.isEmpty then .nan
  else PVal.div (ys.foldl PVal.add (.val 0)) (.val ys.length)

/-- Round-to-nearest integer with ties to even, as used by NumPy/pandas
rounding (and by Python 3's built-in `round`). -/
noncomputable def rne (x : ℝ) : ℤ :=
  if Int.fract x = 1/2 then (if 2 ∣ ⌊x⌋ then ⌊x⌋ else ⌊x⌋ + 1) else round x

/-- Rounding a real to `d` decimal places, NumPy style (ties to even). -/
noncomputable def roundReal (d : ℕ) (x : ℝ) : ℝ := ((rne (x * 10 ^ d) : ℝ)) / 10 ^ d

/-- Elementwise rounding of a pandas scalar: NaN and infinities are fixed. -/
noncomputable def PVal.proundTo (d : ℕ) : PVal → PVal
  | .nan => .nan
  | .pinf => .pinf
  | .ninf => .ninf
  | .val r => .val (roundReal d r)

/-- For a non-tie value pinned strictly between n - 1/2 and n + 1/2,
ties-to-even rounding gives n. -/
theorem rne_eq_of_lt {x : ℝ} {n : ℤ} (h1 : (n : ℝ) - 1/2 < x) (h2 : x < (n : ℝ) + 1/2) :
    rne x = n := by
  have hfr : Int.fract x ≠ 1/2 := by
    intro hf
    have hx : x = (⌊x⌋ : ℝ) + 1/2 := by
      have hsum := Int.fract_add_floor x
      rw [hf] at hsum
      linarith [hsum]
    rw [hx] at h1 h2
    have hl : ((n - 1 : ℤ) : ℝ) < ((⌊x⌋ : ℤ) : ℝ) := by push_cast; linarith
    have hr : ((⌊x⌋ : ℤ) : ℝ) < ((n : ℤ) : ℝ) := by linarith
    have hl2 : (n - 1 : ℤ) < ⌊x⌋ := by exact_mod_cast hl
    have hr2 : ⌊x⌋ < n := by exact_mod_cast hr
    omega
  rw [rne, if_neg hfr, round_eq, Int.floor_eq_iff]
  refine ⟨by linarith, by linarith⟩

/-- Model of a `pandas.DataFrame`: an index of integer timestamps (epoch
seconds or epoch milliseconds depending on vendor) and an ordered list of
named columns.  The series-level axis label set by `rename_axis` carries no
data and is not modelled. -/
structure Frame where
  index : List ℤ
  cols : List (String × List PVal)

/-- Column names of a frame, in order. -/
def Frame.colNames (f : Frame) : List String := f.cols.map Prod.fst

/-- Number of rows of a frame. -/
def Frame.nrows (f : Frame) : ℕ := f.index.length

/-- Pandas `DataFrame.empty`: true when either axis has length zero. -/
def Frame.isEmpty (f : Frame) : Bool := f.index.isEmpty || f.cols.isEmpty

/-- Column lookup, `df[name]`: the first column carrying the name. -/
def Frame.getCol (f : Frame) (name : String) : Option (List PVal) :=
  (f.cols.find? (fun c => c.1 = name)).map Prod.snd

/-- Column assignment, `df[name] = v`: replaces an existing column in place,
otherwise appends a new column at the end, exactly as pandas does. -/
def Frame.setCol (f : Frame) (name : String) (v : List PVal) : Frame :=
  if f.colNames.contains name then
    { f with cols := f.cols.map (fun c => if c.1 = name then (name, v) else c) }
  else { f with cols := f.cols ++ [(name, v)] }

theorem Frame.setCol_index (f : Frame) (name : String) (v : List PVal) :
    (f.setCol name v).index = f.index := by
  unfold Frame.setCol
  split <;> rfl

theorem Frame.setCol_colNames_of_fresh (f : Frame) (name : String) (v : List PVal)
    (h : ¬ name ∈ f.colNames) : (f.setCol name v).colNames = f.colNames ++ [name] := by
  unfold Frame.setCol
  rw [if_neg (by simpa [List.contains_iff_exists_mem_beq] using h)]
  simp [Frame.colNames]

theorem find?_setColList_same (cols : List (String × List PVal)) (name : String)
    (v : List PVal) (hmem : ∃ c ∈ cols, c.1 = name) :
    (cols.map (fun c => if c.1 = name then (name, v) else c)).find?
      (fun c => c.1 = name) = some (name, v) := by
  induction cols with
  | nil => simp at hmem
  | cons c cs ih =>
    by_cases hc : c.1 = name
    · simp [hc]
    · rw [List.map_cons, if_neg hc, List.find?_cons_of_neg _ (by simpa using hc)]
      rcases hmem with ⟨d, hd, hd1⟩
      rcases List.mem_cons.mp hd with rfl | hd2
      · exact absurd hd1 hc
      · exact ih ⟨d, hd2, hd1⟩

theorem find?_append_fresh (cols : List (String × List PVal)) (name : String)
    (v : List PVal) (hfresh : ∀ c ∈ cols, ¬ c.1 = name) :
    (cols ++ [(name, v)]).find? (fun c => c.1 = name) = some (name, v) := by
  induction cols with
  | nil => simp
  | cons c cs ih =>
    rw [List.cons_append,
      List.find?_cons_of_neg _ (by simpa using hfresh c (List.mem_cons_self c cs))]
    exact ih (fun d hd => hfresh d (List.mem_cons_of_mem c hd))

theorem Frame.getCol_setCol_same (f : Frame) (name : String) (v : List PVal) :
    (f.setCol name v).getCol name = some v := by
  unfold Frame.setCol
  split
  case isTrue h =>
    have hmem : ∃ c ∈ f.cols, c.1 = name := by
      rcases List.contains_iff_exists_mem_beq.mp h with ⟨a, ha, hb⟩
      have ha2 : name = a := by simpa using hb
      subst ha2
      rcases List.mem_map.mp ha with ⟨c, hc, hc1⟩
      exact ⟨c, hc, hc1⟩
    unfold Frame.getCol
    rw [find?_setColList_same f.cols name v hmem]
    rfl
  case isFalse h =>
    have hfresh : ∀ c ∈ f.cols, ¬ c.1 = name := by
      intro c hc hc1
      exact h (List.contains_iff_exists_mem_beq.mpr
        ⟨name, List.mem_map.mpr ⟨c, hc, hc1⟩, by simp⟩)
    unfold Frame.getCol
    rw [show ({ f with cols := f.cols ++ [(name, v)] } : Frame).cols
        = f.cols ++ [(name, v)] from rfl,
      find?_append_fresh f.cols name v hfresh]
    rfl

theorem Frame.getCol_setCol_other (f : Frame) (name other : String) (v : List PVal)
    (h : other ≠ name) : (f.setCol name v).getCol other = f.getCol other := by
  unfold Frame.setCol Frame.getCol
  split
  · simp only []
    induction f.cols with
    | nil => simp
    | cons c cs ih =>
      by_cases hco : c.1 = other
      · have hcn : ¬ c.1 = name := fun hcn => h (hco ▸ hcn ▸ rfl)
        rw [List.map_cons, if_neg hcn,
          List.find?_cons_of_pos _ (by simpa using hco),
          List.find?_cons_of_pos _ (by simpa using hco)]
      · by_cases hc : c.1 = name
        · rw [List.map_cons, if_pos hc,
            List.find?_cons_of_neg _ (by simpa using h.symm),
            List.find?_cons_of_neg _ (by simpa using hco)]
          exact ih
        · rw [List.map_cons, if_neg hc,
            List.find?_cons_of_neg _ (by simpa using hco),
            List.find?_cons_of_neg _ (by simpa using hco)]
          exact ih
  · simp only []
    induction f.cols with
    | nil =>
      rw [List.nil_append,
        List.find?_cons_of_neg _ (by simpa using h.symm)]
    | cons c cs ih =>
      by_cases hco : c.1 = other
      · rw [List.cons_append, List.find?_cons_of_pos _ (by simpa using hco),
          List.find?_cons_of_pos _ (by simpa using hco)]
      · rw [List.cons_append, List.find?_cons_of_neg _ (by simpa using hco),
          List.find?_cons_of_neg _ (by simpa using hco)]
        exact ih

/-- Raw response of `yf.download` (market vendor A): a timestamp index (epoch
seconds) and multi-level columns, each labelled by a (field, ticker) pair,
per the spec's vendor-A contract ("time-indexed OHLC rows, possibly
multi-level columns"). -/
structure YFRaw where
  index : List ℕ
  cols : List ((String × String) × List PVal)

/-- Effect of `index.strftime` with format string `%Y-%m-%d %H:%M` followed by
`pd.to_datetime`: the timestamp is truncated to minute precision. -/
def minuteTrunc (t : ℕ) : ℕ := 60 * (t / 60)

/-- Column selection `df[[name]]` for a single label: the first column with
that label, or a `KeyError` when none exists. -/
def yfSelect (cols : List (String × List PVal)) (name : String) :
    Except String (String × List PVal) :=
  match cols.find? (fun c => c.1 = name) with
  | some c => .ok c
  | none => .error ("KeyError: " ++ name)

/-- Effect of `data.columns.droplevel(1)`: keep the field level of each
multi-level column label. -/
def yfFlat (raw : YFRaw) : List (String × List PVal) :=
  raw.cols.map (fun c => (c.1.1, c.2))

/-- The output index of the vendor-A normalizer: the vendor timestamps
truncated to minute precision by the strftime round-trip. -/
def yfIdx (raw : YFRaw) : List ℤ :=
  raw.index.map (fun t => ((minuteTrunc t : ℤ)))

/-- Body of `yf_get_fx_data` inside the `try` block: truncate the index to
minute precision, drop the ticker column level, and select the four columns
`Open, High, Low, Adj Close` (in that order) — note the source selects
`Adj Close`, not `Close`.  The first missing column raises a `KeyError`.
The `rename_axis` call only sets a metadata label and is not modelled. -/
def yf_body (raw : YFRaw) : Except String Frame :=
  match yfSelect (yfFlat raw) "Open", yfSelect (yfFlat raw) "High",
      yfSelect (yfFlat raw) "Low", yfSelect (yfFlat raw) "Adj Close" with
  | .ok o, .ok h, .ok l, .ok a => .ok ⟨yfIdx raw, [o, h, l, a]⟩
  | .error e, _, _, _ => .error e
  | .ok _, .error e, _, _ => .error e
  | .ok _, .ok _, .error e, _ => .error e
  | .ok _, .ok _, .ok _, .error e => .error e

/-- Market Data Normalizer, vendor A (`yf_get_fx_data`).  The first argument
is the outcome of the `yf.download` network call (an exception message or the
raw response); the `try/except` catches every exception, prints a diagnostic
and returns `None`. -/
def yf_get_fx_data (resp : Except String YFRaw) : Option Frame × List String :=
  match resp.bind yf_body with
  | .ok f => (some f, [])
  | .error e => (none, ["An error occurred: " ++ e])

/-- Modelled from the spec: one aggregate record returned by market vendor B
(the polygon client's agg model, which is not part of this repository).  Per
the spec's vendor-B contract it carries an epoch-millisecond timestamp,
lowercase OHLCV fields and vendor extras; the `otc` flag and `transactions`
count are named by the source's `drop` call, and the `vwap` extra is
witnessed by the repository's own `plot_time_series`, which distinguishes
vendor-B frames by their `vwap` column.  Field order matches the vendor
record and determines `pd.DataFrame` column order. -/
structure Agg where
  agg_open : ℝ
  agg_high : ℝ
  agg_low : ℝ
  agg_close : ℝ
  agg_volume : ℝ
  agg_vwap : ℝ
  agg_timestamp : ℕ
  agg_transactions : ℕ
  agg_otc : Bool

/-- Translation of an instrument code into vendor B's prefixed symbol format:
the source computes `"C:" + str(fx_pair)`. -/
def polygonTicker (fx_pair : String) : String := "C:" ++ fx_pair

/-- The request `polygon_get_fx_data` sends to vendor B via
`client.get_aggs(...)`. -/
structure PolygonRequest where
  ticker : String
  multiplier : ℕ
  timespan : String
  fromDate : String
  toDate : String

/-- Request construction in `polygon_get_fx_data`: the prefixed ticker, a
multiplier of 1 and the caller's timespan and date range. -/
def polygon_request (fx_pair interval start_date end_date : String) : PolygonRequest :=
  ⟨polygonTicker fx_pair, 1, interval, start_date, end_date⟩

/-- Result of converting the vendor-B aggregate list to a DataFrame, setting
the millisecond timestamps as index, dropping `otc`, `transactions` and
`timestamp`, and renaming `open/high/low/close/volume` to
`Open/High/Low/Adj Close/Volume`; the `vwap` vendor extra is not dropped and
survives with its lowercase name. -/
noncomputable def polygon_df (aggs : List Agg) : Frame :=
  ⟨aggs.map (fun a => (a.agg_timestamp : ℤ)),
   [("Open", aggs.map (fun a => .val a.agg_open)),
    ("High", aggs.map (fun a => .val a.agg_high)),
    ("Low", aggs.map (fun a => .val a.agg_low)),
    ("Adj Close", aggs.map (fun a => .val a.agg_close)),
    ("Volume", aggs.map (fun a => .val a.agg_volume)),
    ("vwap", aggs.map (fun a => .val a.agg_vwap))]⟩

/-- Market Data Normalizer, vendor B (`polygon_get_fx_data`).  The second
argument is the outcome of the `client.get_aggs` network call.  An exception
is caught and turned into a diagnostic plus `None`; an empty (zero-row)
response hits the explicit `df.empty` check and is also turned into a
diagnostic plus `None`. -/
noncomputable def polygon_get_fx_data (fx_pair : String)
    (resp : Except String (List Agg)) : Option Frame × List String :=
  match resp with
  | .error e => (none, ["An error occurred: " ++ e])
  | .ok aggs =>
    if aggs.isEmpty then (none, ["No data found."])
    else (some (polygon_df aggs), [])

/-- The enumerated FRED indicator codes named by the spec (inflation index,
interest-rate series, GDP, unemployment rate, PMI, trade-weighted dollar
index). -/
def fredIndicators : List String :=
  ["CPIAUCSL", "FEDFUNDS", "GDPC1", "UNRATE", "NAPM", "DTWEXBGS"]

/-- Window restriction `df.loc[start_date:end_date]`: the closed date
interval, dates modelled as ordinal day numbers.  On FRED's sorted date
index, label slicing keeps exactly the rows inside the interval. -/
def fredSlice (hist : List (ℕ × ℝ)) (s e : ℕ) : List (ℕ × ℝ) :=
  hist.filter (fun p => s ≤ p.1 && p.1 ≤ e)

/-- Trailing percentage change `Series.pct_change(k)` followed by `.round(d)`:
NaN for the first `k` rows of the series it is applied to, and the rounded
ratio change for every later row.  Vendor values are modelled as plain reals
(FRED observations carry no NaN), so the default forward-fill is the
identity. -/
noncomputable def pctChangeCol (k d : ℕ) (vs : List ℝ) : List PVal :=
  (List.range vs.length).map (fun t =>
    if t < k then .nan else .val (roundReal d (vs.getD t 0 / vs.getD (t - k) 0 - 1)))

/-- The 12-month year-over-year column `(pct_change(12) * 100).round(2)`,
computed on the post-filter window. -/
noncomputable def yoyCol (vs : List ℝ) : List PVal :=
  (List.range vs.length).map (fun t =>
    if t < 12 then .nan
    else .val (roundReal 2 ((vs.getD t 0 / vs.getD (t - 12) 0 - 1) * 100)))

/-- Observation values of the filtered window, in order. -/
def fredVals (hist : List (ℕ × ℝ)) (s e : ℕ) : List ℝ :=
  (fredSlice hist s e).map Prod.snd

/-- The frame after the indicator column and the always-present
`Percentage_Change` column (`pct_change().round(4)`) are in place. -/
noncomputable def fredF1 (indicator : String) (s e : ℕ) (hist : List (ℕ × ℝ)) : Frame :=
  (Frame.setCol
    ⟨(fredSlice hist s e).map (fun p => (p.1 : ℤ)),
     [(indicator, (fredVals hist s e).map PVal.val)]⟩
    "Percentage_Change" (pctChangeCol 1 4 (fredVals hist s e)))

/-- The frame built by a successful `fetch_fred_data` call: the indicator
column over the filtered window, the always-present `Percentage_Change`
column, and — only when the indicator is the hard-coded inflation series
`CPIAUCSL` — the `YoY_Inflation` column. -/
noncomputable def fredFrame (indicator : String) (s e : ℕ) (hist : List (ℕ × ℝ)) : Frame :=
  if indicator = "CPIAUCSL" then
    (fredF1 indicator s e hist).setCol "YoY_Inflation" (yoyCol (fredVals hist s e))
  else fredF1 indicator s e hist

/-- Macro Series Normalizer (`fetch_fred_data`).  The last argument is the
outcome of `fred.get_series(indicator)` (full-history series of dated
values); exceptions are caught, printed and turned into `None`.  A successful
call always returns the built frame — the source has no zero-row check on
this path. -/
noncomputable def fetch_fred_data (indicator : String) (s e : ℕ)
    (resp : Except String (List (ℕ × ℝ))) : Option Frame × List String :=
  match resp with
  | .error err => (none, ["Error fetching data: " ++ err])
  | .ok hist => (some (fredFrame indicator s e hist), [])

/-- The `Log_Returns` column: `np.log(close / close.shift(1))`.  `shift(1)`
prepends a NaN and drops the last element; division and `np.log` follow the
IEEE semantics of `PVal`. -/
noncomputable def logReturns (close : List PVal) : List PVal :=
  List.zipWith (fun a b => nplog (a.div b)) close (.nan :: close.dropLast)

/-- The `Volatility` column: absolute value of the log returns. -/
noncomputable def vols (close : List PVal) : List PVal :=
  (logReturns close).map PVal.pabs

/-- The scalar `Average_Volatility`: mean of the volatility column with NaN
skipped (pandas default). -/
noncomputable def avgVol (close : List PVal) : PVal := pmean (vols close)

/-- The `Volatility_Multiplier` column:
`round(df['Volatility'] / df['Average_Volatility'], 2)`. -/
noncomputable def multipliers (close : List PVal) : List PVal :=
  (vols close).map (fun v => (v.div (avgVol close)).proundTo 2)

/-- The frame produced (and, the input being mutated in place, also left in
the caller's variable) by a successful `calculate_volatility` call: the four
derived columns are assigned onto the input frame in source order, the scalar
average being broadcast over the rows. -/
noncomputable def calcVolAug (df : Frame) (close : List PVal) : Frame :=
  (((df.setCol "Log_Returns" (logReturns close)).setCol
      "Volatility" (vols close)).setCol
      "Average_Volatility" (List.replicate df.nrows (avgVol close))).setCol
      "Volatility_Multiplier" (multipliers close)

/-- Volatility Feature Extractor (`calculate_volatility`).  There is no
`try/except` in the source, so the result is an `Except`: a missing
`Adj Close` column would raise a `KeyError` to the caller.  The guard clause
turns a `None` or empty input into a printed diagnostic plus the `None`
sentinel before anything can raise. -/
noncomputable def calculate_volatility (df? : Option Frame) :
    Except String (Option Frame × List String) :=
  match df? with
  | none => .ok (none, ["Error: DataFrame is empty or invalid."])
  | some df =>
    if df.isEmpty then .ok (none, ["Error: DataFrame is empty or invalid."])
    else
      match df.getCol "Adj Close" with
      | none => .error "KeyError: Adj Close"
      | some close => .ok (some (calcVolAug df close), [])

/-- State of the caller's argument after `calculate_volatility` returns: the
column assignments `df[...] = ...` mutate the passed DataFrame in place, so
on the success path the argument holds the augmented frame (the very object
returned); on the guard path and on a `KeyError` (raised while reading
`df['Adj Close']`, before any assignment) the argument is untouched. -/
noncomputable def calculate_volatility_argAfter (df? : Option Frame) : Option Frame :=
  match df? with
  | none => none
  | some df =>
    if df.isEmpty then some df
    else
      match df.getCol "Adj Close" with
      | none => some df
      | some close => some (calcVolAug df close)

/-- C8 (confirmed): for every instrument code string, the symbol sent in the
vendor-B request is the input code prefixed with "C:"; in particular the
instrument code "USDGBP" makes the request target "C:USDGBP". -/
theorem C8_polygon_symbol_translation :
    (∀ fx_pair interval start_date end_date : String,
      (polygon_request fx_pair interval start_date end_date).ticker = "C:" ++ fx_pair) ∧
    (polygon_request "USDGBP" "minute" "2025-01-15" "2025-01-15").ticker = "C:USDGBP" :=
  ⟨fun _ _ _ _ => rfl, rfl⟩

/-- C9 (confirmed): calling the Volatility Feature Extractor with an absent
(None) or empty table emits the diagnostic message and returns the None
sentinel as a normal return value (`Except.ok`), so no exception reaches the
caller. -/
theorem C9_extractor_guard :
    calculate_volatility none
      = .ok (none, ["Error: DataFrame is empty or invalid."]) ∧
    ∀ df : Frame, df.isEmpty = true →
      calculate_volatility (some df)
        = .ok (none, ["Error: DataFrame is empty or invalid."]) := by
  refine ⟨rfl, fun df h => ?_⟩
  simp [calculate_volatility, h]

/-- Witness for C9 at the concrete empty frame. -/
theorem C9_extractor_guard_witness :
    calculate_volatility (some ⟨[], []⟩)
      = .ok (none, ["Error: DataFrame is empty or invalid."]) :=
  C9_extractor_guard.2 ⟨[], []⟩ rfl

theorem fredF1_colNames (ind : String) (s e : ℕ) (hist : List (ℕ × ℝ))
    (hpc : ind ≠ "Percentage_Change") :
    (fredF1 ind s e hist).colNames = [ind, "Percentage_Change"] := by
  unfold fredF1
  rw [Frame.setCol_colNames_of_fresh _ _ _ (by
    simp only [Frame.colNames, List.map_cons, List.map_nil, List.mem_singleton]
    exact fun h => hpc h.symm)]
  rfl

theorem fredFrame_colNames (ind : String) (s e : ℕ) (hist : List (ℕ × ℝ))
    (hpc : ind ≠ "Percentage_Change") (hyoy : ind ≠ "YoY_Inflation") :
    (fredFrame ind s e hist).colNames
      = [ind, "Percentage_Change"]
        ++ (if ind = "CPIAUCSL" then ["YoY_Inflation"] else []) := by
  unfold fredFrame
  split
  case isTrue hcpi =>
    rw [Frame.setCol_colNames_of_fresh _ _ _ (by
        rw [fredF1_colNames ind s e hist hpc]
        intro hm
        rcases List.mem_cons.mp hm with h1 | h2
        · exact hyoy h1.symm
        · exact absurd h2 (by decide)),
      fredF1_colNames ind s e hist hpc]
  case isFalse hcpi =>
    rw [fredF1_colNames ind s e hist hpc]
    simp

/-- C7 (confirmed): for every successful macro fetch with one of the spec's
enumerated indicator codes, the result contains the period-over-period
change column always, and contains the YoY inflation column exactly when the
indicator is the designated inflation series "CPIAUCSL" (so "UNRATE" and the
other non-CPI codes do not get it). -/
theorem C7_yoy_gating :
    ∀ indicator : String, indicator ∈ fredIndicators →
    ∀ (s e : ℕ) (hist : List (ℕ × ℝ)),
      fetch_fred_data indicator s e (.ok hist)
        = (some (fredFrame indicator s e hist), []) ∧
      "Percentage_Change" ∈ (fredFrame indicator s e hist).colNames ∧
      ("YoY_Inflation" ∈ (fredFrame indicator s e hist).colNames
        ↔ indicator = "CPIAUCSL") := by
  intro indicator hmem s e hist
  simp only [fredIndicators, List.mem_cons, List.not_mem_nil, or_false] at hmem
  rcases hmem with rfl | rfl | rfl | rfl | rfl | rfl <;>
    refine ⟨rfl, ?_, ?_⟩ <;>
    rw [fredFrame_colNames _ s e hist (by decide) (by decide)] <;>
    decide

/-- Witness for C7 at the concrete indicators "CPIAUCSL" and "UNRATE" with a
one-observation history. -/
theorem C7_yoy_gating_witness :
    ("YoY_Inflation" ∈ (fredFrame "CPIAUCSL" 0 10 [(1, (2 : ℝ))]).colNames
      ↔ "CPIAUCSL" = "CPIAUCSL") ∧
    ("YoY_Inflation" ∈ (fredFrame "UNRATE" 0 10 [(1, (2 : ℝ))]).colNames
      ↔ "UNRATE" = "CPIAUCSL") ∧
    "Percentage_Change" ∈ (fredFrame "UNRATE" 0 10 [(1, (2 : ℝ))]).colNames :=
  ⟨(C7_yoy_gating "CPIAUCSL" (by decide) 0 10 [(1, 2)]).2.2,
   (C7_yoy_gating "UNRATE" (by decide) 0 10 [(1, 2)]).2.2,
   (C7_yoy_gating "UNRATE" (by decide) 0 10 [(1, 2)]).2.1⟩

theorem fredFrame_yoy_getCol (s e : ℕ) (hist : List (ℕ × ℝ)) :
    (fredFrame "CPIAUCSL" s e hist).getCol "YoY_Inflation"
      = some (yoyCol (fredVals hist s e)) := by
  unfold fredFrame
  rw [if_pos rfl]
  exact Frame.getCol_setCol_same _ _ _

theorem yoyCol_getElem_lt (vs : List ℝ) (t : ℕ) (h1 : t < 12) (h2 : t < vs.length) :
    (yoyCol vs)[t]? = some PVal.nan := by
  unfold yoyCol
  rw [List.getElem?_map, List.getElem?_range h2]
  simp [h1]

theorem yoyCol_getElem_ge (vs : List ℝ) (t : ℕ) (h1 : 12 ≤ t) (h2 : t < vs.length) :
    (yoyCol vs)[t]?
      = some (PVal.val (roundReal 2 ((vs.getD t 0 / vs.getD (t - 12) 0 - 1) * 100))) := by
  unfold yoyCol
  rw [List.getElem?_map, List.getElem?_range h2]
  simp [Nat.not_lt.mpr h1]

/-- C6 (confirmed): in `fetch_fred_data` the year-over-year change at
post-filter row t equals `(value[t]/value[t-12] - 1) * 100` rounded to two
decimals, and it is NaN for every t < 12 — counted inside the filtered
window, whatever history exists in `hist` before the filter start, because
`pct_change(12)` is applied after `df.loc[start:end]`. -/
theorem C6_yoy_post_filter_window :
    ∀ (hist : List (ℕ × ℝ)) (s e t : ℕ),
      fetch_fred_data "CPIAUCSL" s e (.ok hist)
        = (some (fredFrame "CPIAUCSL" s e hist), []) ∧
      (fredFrame "CPIAUCSL" s e hist).getCol "YoY_Inflation"
        = some (yoyCol (fredVals hist s e)) ∧
      (t < 12 → t < (fredVals hist s e).length →
        (yoyCol (fredVals hist s e))[t]? = some PVal.nan) ∧
      (12 ≤ t → t < (fredVals hist s e).length →
        (yoyCol (fredVals hist s e))[t]?
          = some (PVal.val (roundReal 2
              (((fredVals hist s e).getD t 0
                / (fredVals hist s e).getD (t - 12) 0 - 1) * 100)))) :=
  fun hist s e t =>
    ⟨rfl, fredFrame_yoy_getCol s e hist,
     yoyCol_getElem_lt (fredVals hist s e) t,
     yoyCol_getElem_ge (fredVals hist s e) t⟩

/-- Concrete 13-observation CPI history used to witness C6. -/
def C6hist : List (ℕ × ℝ) :=
  [(0, 1), (1, 1), (2, 1), (3, 1), (4, 1), (5, 1), (6, 1),
   (7, 1), (8, 1), (9, 1), (10, 1), (11, 1), (12, 1)]

/-- Witness for C6: on the 13-row window, row 11 has a NaN YoY change and
row 12 carries the rounded ratio change. -/
theorem C6_yoy_post_filter_window_witness :
    (yoyCol (fredVals C6hist 0 12))[11]? = some PVal.nan ∧
    (yoyCol (fredVals C6hist 0 12))[12]?
      = some (PVal.val (roundReal 2
          (((fredVals C6hist 0 12).getD 12 0
            / (fredVals C6hist 0 12).getD 0 0 - 1) * 100))) := by
  have hlen : (fredVals C6hist 0 12).length = 13 := by
    simp [fredVals, fredSlice, C6hist]
  exact ⟨(C6_yoy_post_filter_window C6hist 0 12 11).2.2.1 (by decide) (by rw [hlen]; decide),
         (C6_yoy_post_filter_window C6hist 0 12 12).2.2.2 (by decide) (by rw [hlen]; decide)⟩

theorem calcVolAug_index (df : Frame) (close : List PVal) :
    (calcVolAug df close).index = df.index := by
  unfold calcVolAug
  rw [Frame.setCol_index, Frame.setCol_index, Frame.setCol_index, Frame.setCol_index]

theorem calcVolAug_colNames (df : Frame) (close : List PVal)
    (h1 : "Log_Returns" ∉ df.colNames) (h2 : "Volatility" ∉ df.colNames)
    (h3 : "Average_Volatility" ∉ df.colNames)
    (h4 : "Volatility_Multiplier" ∉ df.colNames) :
    (calcVolAug df close).colNames
      = df.colNames ++ ["Log_Returns", "Volatility", "Average_Volatility",
          "Volatility_Multiplier"] := by
  have hA : (df.setCol "Log_Returns" (logReturns close)).colNames
      = df.colNames ++ ["Log_Returns"] := Frame.setCol_colNames_of_fresh _ _ _ h1
  have hB : ((df.setCol "Log_Returns" (logReturns close)).setCol
        "Volatility" (vols close)).colNames
      = df.colNames ++ ["Log_Returns"] ++ ["Volatility"] := by
    rw [Frame.setCol_colNames_of_fresh _ _ _ (by rw [hA]; simp [h2]), hA]
  have hC : (((df.setCol "Log_Returns" (logReturns close)).setCol
        "Volatility" (vols close)).setCol
        "Average_Volatility" (List.replicate df.nrows (avgVol close))).colNames
      = df.colNames ++ ["Log_Returns"] ++ ["Volatility"] ++ ["Average_Volatility"] := by
    rw [Frame.setCol_colNames_of_fresh _ _ _ (by rw [hB]; simp [h3]), hB]
  unfold calcVolAug
  rw [Frame.setCol_colNames_of_fresh _ _ _ (by rw [hC]; simp [h4]), hC]
  simp

theorem calcVolAug_getCol_new (df : Frame) (close : List PVal) :
    (calcVolAug df close).getCol "Log_Returns" = some (logReturns close) ∧
    (calcVolAug df close).getCol "Volatility" = some (vols close) ∧
    (calcVolAug df close).getCol "Average_Volatility"
      = some (List.replicate df.nrows (avgVol close)) ∧
    (calcVolAug df close).getCol "Volatility_Multiplier"
      = some (multipliers close) := by
  unfold calcVolAug
  refine ⟨?_, ?_, ?_, ?_⟩
  · rw [Frame.getCol_setCol_other _ _ _ _ (by decide),
      Frame.getCol_setCol_other _ _ _ _ (by decide),
      Frame.getCol_setCol_other _ _ _ _ (by decide),
      Frame.getCol_setCol_same]
  · rw [Frame.getCol_setCol_other _ _ _ _ (by decide),
      Frame.getCol_setCol_other _ _ _ _ (by decide),
      Frame.getCol_setCol_same]
  · rw [Frame.getCol_setCol_other _ _ _ _ (by decide),
      Frame.getCol_setCol_same]
  · rw [Frame.getCol_setCol_same]

theorem calcVolAug_getCol_old (df : Frame) (close : List PVal) (name : String)
    (hn1 : name ≠ "Log_Returns") (hn2 : name ≠ "Volatility")
    (hn3 : name ≠ "Average_Volatility") (hn4 : name ≠ "Volatility_Multiplier") :
    (calcVolAug df close).getCol name = df.getCol name := by
  unfold calcVolAug
  rw [Frame.getCol_setCol_other _ _ _ _ hn4, Frame.getCol_setCol_other _ _ _ _ hn3,
    Frame.getCol_setCol_other _ _ _ _ hn2, Frame.getCol_setCol_other _ _ _ _ hn1]

theorem calculate_volatility_some (df : Frame) (close : List PVal)
    (hne : df.isEmpty = false) (hcol : df.getCol "Adj Close" = some close) :
    calculate_volatility (some df) = .ok (some (calcVolAug df close), []) := by
  simp [calculate_volatility, hne, hcol]

theorem calculate_volatility_argAfter_some (df : Frame) (close : List PVal)
    (hne : df.isEmpty = false) (hcol : df.getCol "Adj Close" = some close) :
    calculate_volatility_argAfter (some df) = some (calcVolAug df close) := by
  simp [calculate_volatility_argAfter, hne, hcol]

/-- Formalisation of claim C5 exactly as stated: `calculate_volatility`
leaves the caller's table unchanged (no in-place mutation), and the returned
table has the same rows with the original columns preserved in order ahead
of the four new ones. -/
def spec_claim_C5 : Prop :=
  ∀ (df : Frame) (res : Option Frame) (msgs : List String),
    calculate_volatility (some df) = .ok (res, msgs) →
    calculate_volatility_argAfter (some df) = some df ∧
    (∀ g, res = some g → g.index = df.index ∧
      g.colNames = df.colNames
        ++ ["Log_Returns", "Volatility", "Average_Volatility",
            "Volatility_Multiplier"])

/-- Concrete canonical two-row market frame used to refute C5. -/
noncomputable def C5df : Frame :=
  ⟨[0, 1],
   [("Open", [.val 100, .val 101]), ("High", [.val 100, .val 101]),
    ("Low", [.val 100, .val 101]), ("Adj Close", [.val 100, .val 101])]⟩

/-- C5 counterexample: on a plain two-row canonical frame, the column
assignments inside `calculate_volatility` mutate the caller's DataFrame in
place — after the call the argument holds the augmented eight-column frame,
not the original four-column one. -/
theorem C5_counterexample : ¬ spec_claim_C5 := by
  intro h
  have hne : C5df.isEmpty = false := rfl
  have hcol : C5df.getCol "Adj Close" = some [.val 100, .val 101] := rfl
  have hcalc := calculate_volatility_some C5df [.val 100, .val 101] hne hcol
  obtain ⟨hmut, -⟩ := h C5df (some (calcVolAug C5df [.val 100, .val 101])) [] hcalc
  rw [calculate_volatility_argAfter_some C5df [.val 100, .val 101] hne hcol] at hmut
  have heq : calcVolAug C5df [.val 100, .val 101] = C5df := Option.some.inj hmut
  have hcn : (calcVolAug C5df [.val 100, .val 101]).colNames
      = C5df.colNames ++ ["Log_Returns", "Volatility", "Average_Volatility",
          "Volatility_Multiplier"] :=
    calcVolAug_colNames C5df _ (by decide) (by decide) (by decide) (by decide)
  rw [heq] at hcn
  have hlen := congrArg List.length hcn
  simp [C5df, Frame.colNames] at hlen

/-- C5 (corrected): the claim fails because `calculate_volatility` works in
place — the caller's table is mutated.  Amended claim: on a non-empty frame
with an `Adj Close` column and none of the four derived column names already
present, `calculate_volatility` returns the augmented frame and leaves that
same augmented frame in the caller's argument (input and output are one
object); no rows are added or removed, the original columns keep their
order, position ahead of the new ones, and their values. -/
theorem C5_amended :
    ∀ (df : Frame) (close : List PVal),
      df.isEmpty = false →
      df.getCol "Adj Close" = some close →
      "Log_Returns" ∉ df.colNames →
      "Volatility" ∉ df.colNames →
      "Average_Volatility" ∉ df.colNames →
      "Volatility_Multiplier" ∉ df.colNames →
      calculate_volatility (some df) = .ok (some (calcVolAug df close), []) ∧
      calculate_volatility_argAfter (some df) = some (calcVolAug df close) ∧
      (calcVolAug df close).index = df.index ∧
      (calcVolAug df close).colNames
        = df.colNames ++ ["Log_Returns", "Volatility", "Average_Volatility",
            "Volatility_Multiplier"] ∧
      (∀ name ∈ df.colNames, (calcVolAug df close).getCol name = df.getCol name) := by
  intro df close hne hcol h1 h2 h3 h4
  refine ⟨calculate_volatility_some df close hne hcol,
    calculate_volatility_argAfter_some df close hne hcol,
    calcVolAug_index df close,
    calcVolAug_colNames df close h1 h2 h3 h4,
    fun name hmem => calcVolAug_getCol_old df close name
      (fun hn => h1 (hn ▸ hmem)) (fun hn => h2 (hn ▸ hmem))
      (fun hn => h3 (hn ▸ hmem)) (fun hn => h4 (hn ▸ hmem))⟩

/-- Witness for C5 (amended) at the concrete two-row canonical frame. -/
theorem C5_amended_witness :
    calculate_volatility (some C5df)
      = .ok (some (calcVolAug C5df [.val 100, .val 101]), []) ∧
    calculate_volatility_argAfter (some C5df)
      = some (calcVolAug C5df [.val 100, .val 101]) ∧
    (calcVolAug C5df [.val 100, .val 101]).index = [0, 1] ∧
    (calcVolAug C5df [.val 100, .val 101]).colNames
      = ["Open", "High", "Low", "Adj Close", "Log_Returns", "Volatility",
         "Average_Volatility", "Volatility_Multiplier"] := by
  obtain ⟨ha, hb, hc, hd, -⟩ := C5_amended C5df [.val 100, .val 101]
    rfl rfl (by decide) (by decide) (by decide) (by decide)
  exact ⟨ha, hb, hc, hd⟩

theorem yfSelect_ok {cols : List (String × List PVal)} {name : String}
    {c : String × List PVal} (h : yfSelect cols name = .ok c) : c.1 = name := by
  unfold yfSelect at h
  cases hf : cols.find? (fun d => d.1 = name) with
  | none => rw [hf] at h; cases h
  | some d =>
    rw [hf] at h
    cases h
    have hp := List.find?_some hf
    exact of_decide_eq_true hp

theorem yf_body_ok {raw : YFRaw} {f : Frame} (hok : yf_body raw = .ok f) :
    f.colNames = ["Open", "High", "Low", "Adj Close"] ∧ f.index = yfIdx raw := by
  cases hO : yfSelect (yfFlat raw) "Open" with
  | error e => simp only [yf_body, hO] at hok; exact Except.noConfusion hok
  | ok o =>
  cases hH : yfSelect (yfFlat raw) "High" with
  | error e => simp only [yf_body, hO, hH] at hok; exact Except.noConfusion hok
  | ok hh =>
  cases hL : yfSelect (yfFlat raw) "Low" with
  | error e => simp only [yf_body, hO, hH, hL] at hok; exact Except.noConfusion hok
  | ok ll =>
  cases hA : yfSelect (yfFlat raw) "Adj Close" with
  | error e => simp only [yf_body, hO, hH, hL, hA] at hok; exact Except.noConfusion hok
  | ok aa =>
  simp only [yf_body, hO, hH, hL, hA] at hok
  cases hok
  refine ⟨?_, rfl⟩
  simp [Frame.colNames, yfSelect_ok hO, yfSelect_ok hH, yfSelect_ok hL, yfSelect_ok hA]

theorem yf_get_ok {raw : YFRaw} {f : Frame} (hok : yf_body raw = .ok f) :
    yf_get_fx_data (.ok raw) = (some f, []) := by
  unfold yf_get_fx_data
  have hb : (Except.ok raw : Except String YFRaw).bind yf_body = yf_body raw := rfl
  rw [hb, hok]

/-- Lists regarded as sets of column names: same members. -/
def listSetEq (xs ys : List String) : Prop := ∀ s, s ∈ xs ↔ s ∈ ys

/-- Formalisation of claim C1 exactly as stated: every successful call of
either Market Data Normalizer variant yields a table whose columns are, as a
set, exactly Open/High/Low/Close or exactly Open/High/Low/Close/Volume, with
a strictly increasing duplicate-free timestamp index. -/
def spec_claim_C1 : Prop :=
  (∀ (resp : Except String YFRaw) (f : Frame) (msgs : List String),
    yf_get_fx_data resp = (some f, msgs) →
    (listSetEq f.colNames ["Open", "High", "Low", "Close"] ∨
      listSetEq f.colNames ["Open", "High", "Low", "Close", "Volume"]) ∧
    f.index.Pairwise (· < ·)) ∧
  (∀ (p : String) (resp : Except String (List Agg)) (f : Frame) (msgs : List String),
    polygon_get_fx_data p resp = (some f, msgs) →
    (listSetEq f.colNames ["Open", "High", "Low", "Close"] ∨
      listSetEq f.colNames ["Open", "High", "Low", "Close", "Volume"]) ∧
    f.index.Pairwise (· < ·))

/-- Concrete complete vendor-A response (one bar at epoch second 0). -/
noncomputable def C1raw : YFRaw :=
  ⟨[0],
   [(("Open", "EURUSD=X"), [.val 1]), (("High", "EURUSD=X"), [.val 1]),
    (("Low", "EURUSD=X"), [.val 1]), (("Close", "EURUSD=X"), [.val 1]),
    (("Adj Close", "EURUSD=X"), [.val 1]), (("Volume", "EURUSD=X"), [.val 0])]⟩

/-- Concrete vendor-A response whose two timestamps lie in the same minute
(epoch seconds 30 and 45). -/
noncomputable def C1rawDup : YFRaw :=
  ⟨[30, 45],
   [(("Open", "EURUSD=X"), [.val 1, .val 1]), (("High", "EURUSD=X"), [.val 1, .val 1]),
    (("Low", "EURUSD=X"), [.val 1, .val 1]), (("Adj Close", "EURUSD=X"), [.val 1, .val 1])]⟩

/-- C1 counterexample: a successful vendor-A call returns the column set
Open/High/Low/Adj Close — the close column is named "Adj Close", not
"Close", so neither claimed column set matches; moreover the strftime
round-trip truncates to minute precision, so a response with two in-minute
timestamps (seconds 30 and 45) yields the duplicated index [0, 0]. -/
theorem C1_counterexample :
    ¬ spec_claim_C1 ∧
    (yf_get_fx_data (.ok C1rawDup)).1.map Frame.index = some [0, 0] := by
  constructor
  · intro h
    have hok : yf_body C1raw
        = .ok ⟨[0], [("Open", [.val 1]), ("High", [.val 1]),
            ("Low", [.val 1]), ("Adj Close", [.val 1])]⟩ := rfl
    have hget : yf_get_fx_data (.ok C1raw)
        = (some ⟨[0], [("Open", [.val 1]), ("High", [.val 1]),
            ("Low", [.val 1]), ("Adj Close", [.val 1])]⟩, []) := yf_get_ok hok
    obtain ⟨hset, -⟩ := h.1 (.ok C1raw) _ _ hget
    rcases hset with hs | hs
    · have hmem := (hs "Adj Close").mp (by decide)
      exact absurd hmem (by decide)
    · have hmem := (hs "Adj Close").mp (by decide)
      exact absurd hmem (by decide)
  · rfl

/-- C1 (corrected): the claim fails on the code — the close column of both
variants is named "Adj Close", not "Close", the vendor-B result keeps the
extra "vwap" column, and the vendor-A index is the vendor's timestamps
truncated to minute precision (so in-minute timestamps collide).  Amended
claim: a successful vendor-A call returns columns exactly
Open/High/Low/Adj Close, and a successful vendor-B call returns columns
exactly Open/High/Low/Adj Close/Volume/vwap; each result's index is the
vendor's timestamp sequence (minute-truncated for vendor A), hence strictly
increasing without duplicates whenever that sequence is. -/
theorem C1_amended :
    (∀ (raw : YFRaw) (f : Frame),
      yf_body raw = .ok f →
      yf_get_fx_data (.ok raw) = (some f, []) ∧
      f.colNames = ["Open", "High", "Low", "Adj Close"] ∧
      f.index = yfIdx raw ∧
      ((yfIdx raw).Pairwise (· < ·) → f.index.Pairwise (· < ·))) ∧
    (∀ (p : String) (aggs : List Agg),
      aggs ≠ [] →
      polygon_get_fx_data p (.ok aggs) = (some (polygon_df aggs), []) ∧
      (polygon_df aggs).colNames
        = ["Open", "High", "Low", "Adj Close", "Volume", "vwap"] ∧
      (polygon_df aggs).index = aggs.map (fun a => (a.agg_timestamp : ℤ)) ∧
      ((aggs.map (fun a => (a.agg_timestamp : ℤ))).Pairwise (· < ·) →
        (polygon_df aggs).index.Pairwise (· < ·))) := by
  constructor
  · intro raw f hok
    obtain ⟨hcn, hidx⟩ := yf_body_ok hok
    exact ⟨yf_get_ok hok, hcn, hidx, fun hp => hidx ▸ hp⟩
  · intro p aggs hne
    refine ⟨?_, rfl, rfl, fun hp => hp⟩
    simp only [polygon_get_fx_data]
    rw [if_neg (by simpa [List.isEmpty_iff] using hne)]

/-- Concrete sorted complete responses witnessing C1 (amended). -/
noncomputable def C1wraw : YFRaw :=
  ⟨[60, 180],
   [(("Open", "EURUSD=X"), [.val 1, .val 2]), (("High", "EURUSD=X"), [.val 1, .val 2]),
    (("Low", "EURUSD=X"), [.val 1, .val 2]), (("Close", "EURUSD=X"), [.val 1, .val 2]),
    (("Adj Close", "EURUSD=X"), [.val 1, .val 2]),
    (("Volume", "EURUSD=X"), [.val 0, .val 0])]⟩

/-- Concrete two-bar vendor-B response witnessing C1 (amended). -/
noncomputable def C1waggs : List Agg :=
  [⟨1, 1, 1, 1, 0, 1, 1000, 1, false⟩, ⟨2, 2, 2, 2, 0, 2, 2000, 1, false⟩]

/-- Witness for C1 (amended) at concrete sorted responses from both vendors. -/
theorem C1_amended_witness :
    (yf_get_fx_data (.ok C1wraw)
      = (some ⟨[60, 180],
          [("Open", [.val 1, .val 2]), ("High", [.val 1, .val 2]),
           ("Low", [.val 1, .val 2]), ("Adj Close", [.val 1, .val 2])]⟩, [])) ∧
    (⟨[60, 180],
      [("Open", [.val 1, .val 2]), ("High", [.val 1, .val 2]),
       ("Low", [.val 1, .val 2]), ("Adj Close", [.val 1, .val 2])]⟩ : Frame).index.Pairwise
        (· < ·) ∧
    polygon_get_fx_data "USDGBP" (.ok C1waggs) = (some (polygon_df C1waggs), []) ∧
    (polygon_df C1waggs).colNames
      = ["Open", "High", "Low", "Adj Close", "Volume", "vwap"] ∧
    (polygon_df C1waggs).index.Pairwise (· < ·) := by
  obtain ⟨hget, -, -, hpair⟩ := C1_amended.1 C1wraw
    ⟨[60, 180],
     [("Open", [.val 1, .val 2]), ("High", [.val 1, .val 2]),
      ("Low", [.val 1, .val 2]), ("Adj Close", [.val 1, .val 2])]⟩ rfl
  obtain ⟨hpget, hpcn, -, hppair⟩ := C1_amended.2 "USDGBP" C1waggs
    (by simp [C1waggs])
  refine ⟨hget, ?_, hpget, hpcn, ?_⟩
  · exact hpair (by
      show (yfIdx C1wraw).Pairwise (· < ·)
      have hy : yfIdx C1wraw = [60, 180] := rfl
      rw [hy]
      decide)
  · exact hppair (by
      have hy : C1waggs.map (fun a => (a.agg_timestamp : ℤ)) = [1000, 2000] := rfl
      rw [hy]
      decide)

theorem fredFrame_index (ind : String) (s e : ℕ) (hist : List (ℕ × ℝ)) :
    (fredFrame ind s e hist).index = (fredSlice hist s e).map (fun p => (p.1 : ℤ)) := by
  unfold fredFrame fredF1
  split
  · rw [Frame.setCol_index, Frame.setCol_index]
  · rw [Frame.setCol_index]

/-- Formalisation of claim C4 exactly as stated: each of the three boundary
functions maps any exception to a diagnostic plus the None sentinel, and in
each of them a call that succeeds with zero rows is likewise turned into a
diagnostic plus the sentinel, never returned as a valid zero-row table. -/
def spec_claim_C4 : Prop :=
  (∀ e, yf_get_fx_data (.error e) = (none, ["An error occurred: " ++ e])) ∧
  (∀ p e, polygon_get_fx_data p (.error e) = (none, ["An error occurred: " ++ e])) ∧
  (∀ ind s en e, fetch_fred_data ind s en (.error e)
    = (none, ["Error fetching data: " ++ e])) ∧
  (∀ raw : YFRaw, raw.index = [] →
    (yf_get_fx_data (.ok raw)).1 = none ∧ (yf_get_fx_data (.ok raw)).2 ≠ []) ∧
  (∀ p, (polygon_get_fx_data p (.ok [])).1 = none
    ∧ (polygon_get_fx_data p (.ok [])).2 ≠ []) ∧
  (∀ ind s en (hist : List (ℕ × ℝ)), fredSlice hist s en = [] →
    (fetch_fred_data ind s en (.ok hist)).1 = none
    ∧ (fetch_fred_data ind s en (.ok hist)).2 ≠ [])

/-- Concrete zero-row but schema-complete vendor-A response (a valid-ticker
request over a range holding no data returns exactly this shape). -/
noncomputable def C4raw : YFRaw :=
  ⟨[],
   [(("Open", "EURUSD=X"), []), (("High", "EURUSD=X"), []),
    (("Low", "EURUSD=X"), []), (("Close", "EURUSD=X"), []),
    (("Adj Close", "EURUSD=X"), []), (("Volume", "EURUSD=X"), [])]⟩

/-- C4 counterexample: `yf_get_fx_data` has no zero-row check, so a
successful empty response with the usual columns is returned as a valid
zero-row table (with no diagnostic), not as the sentinel. -/
theorem C4_counterexample : ¬ spec_claim_C4 := by
  intro h
  have hok : yf_body C4raw
      = .ok ⟨[], [("Open", []), ("High", []), ("Low", []), ("Adj Close", [])]⟩ := rfl
  have hget := yf_get_ok hok
  obtain ⟨hnone, -⟩ := h.2.2.2.1 C4raw rfl
  rw [hget] at hnone
  exact Option.noConfusion hnone

/-- C4 (corrected): the exception half of the claim holds for all three
functions, but only the vendor-B variant turns a zero-row success into the
sentinel.  Amended claim: every exception (from the network call or raised
inside the body) is caught at the boundary and becomes a diagnostic plus
None; a zero-row vendor-B success becomes "No data found." plus None; but
the vendor-A and macro fetch variants return a zero-row success unchanged,
as a valid empty table with no diagnostic. -/
theorem C4_amended :
    (∀ e, yf_get_fx_data (.error e) = (none, ["An error occurred: " ++ e])) ∧
    (∀ (raw : YFRaw) e, yf_body raw = .error e →
      yf_get_fx_data (.ok raw) = (none, ["An error occurred: " ++ e])) ∧
    (∀ p e, polygon_get_fx_data p (.error e) = (none, ["An error occurred: " ++ e])) ∧
    (∀ p, polygon_get_fx_data p (.ok []) = (none, ["No data found."])) ∧
    (∀ ind s en e, fetch_fred_data ind s en (.error e)
      = (none, ["Error fetching data: " ++ e])) ∧
    (∀ (raw : YFRaw) (f : Frame), raw.index = [] → yf_body raw = .ok f →
      yf_get_fx_data (.ok raw) = (some f, []) ∧ f.index = []) ∧
    (∀ ind s en (hist : List (ℕ × ℝ)), fredSlice hist s en = [] →
      fetch_fred_data ind s en (.ok hist) = (some (fredFrame ind s en hist), [])
      ∧ (fredFrame ind s en hist).index = []) := by
  refine ⟨fun e => rfl, ?_, fun p e => rfl, fun p => rfl, fun ind s en e => rfl, ?_, ?_⟩
  · intro raw e herr
    unfold yf_get_fx_data
    have hb : (Except.ok raw : Except String YFRaw).bind yf_body = yf_body raw := rfl
    rw [hb, herr]
  · intro raw f hidx hok
    refine ⟨yf_get_ok hok, ?_⟩
    rw [(yf_body_ok hok).2]
    unfold yfIdx
    rw [hidx]
    rfl
  · intro ind s en hist hsl
    refine ⟨rfl, ?_⟩
    rw [fredFrame_index, hsl]
    rfl

/-- Witness for C4 (amended): the zero-row vendor-A response passes through
as a success, an internal KeyError on a columnless response is caught, and
an empty macro window passes through. -/
theorem C4_amended_witness :
    yf_get_fx_data (.ok C4raw)
      = (some ⟨[], [("Open", []), ("High", []), ("Low", []), ("Adj Close", [])]⟩, []) ∧
    yf_get_fx_data (.ok (⟨[], []⟩ : YFRaw))
      = (none, ["An error occurred: " ++ "KeyError: Open"]) ∧
    fetch_fred_data "UNRATE" 5 6 (.ok [(1, (2 : ℝ))])
      = (some (fredFrame "UNRATE" 5 6 [(1, (2 : ℝ))]), []) := by
  refine ⟨(C4_amended.2.2.2.2.2.1 C4raw _ rfl rfl).1,
    C4_amended.2.1 (⟨[], []⟩ : YFRaw) "KeyError: Open" rfl,
    (C4_amended.2.2.2.2.2.2 "UNRATE" 5 6 [(1, (2 : ℝ))] ?_).1⟩
  simp [fredSlice]

theorem PVal.div_nan (c : PVal) : c.div .nan = .nan := by
  cases c <;> rfl

theorem PVal.nan_div (c : PVal) : PVal.nan.div c = .nan := by
  cases c <;> rfl

theorem logReturns_zero (c : PVal) (rest : List PVal) :
    (logReturns (c :: rest))[0]? = some PVal.nan := by
  unfold logReturns
  rw [List.getElem?_zipWith]
  simp [PVal.div_nan, nplog]

theorem vols_zero (c : PVal) (rest : List PVal) :
    (vols (c :: rest))[0]? = some PVal.nan := by
  unfold vols
  rw [List.getElem?_map, logReturns_zero]
  rfl

theorem multipliers_zero (c : PVal) (rest : List PVal) :
    (multipliers (c :: rest))[0]? = some PVal.nan := by
  unfold multipliers
  rw [List.getElem?_map, vols_zero]
  simp [PVal.nan_div, PVal.proundTo]

theorem logReturns_getElem_succ (close : List PVal) (t : ℕ) (a b : PVal)
    (hb : close[t]? = some b) (ha : close[t + 1]? = some a) :
    (logReturns close)[t + 1]? = some (nplog (a.div b)) := by
  have hlt : t + 1 < close.length := (List.getElem?_eq_some_iff.mp ha).1
  unfold logReturns
  rw [List.getElem?_zipWith, ha]
  have hshift : (PVal.nan :: close.dropLast)[t + 1]? = some b := by
    rw [List.getElem?_cons_succ, List.getElem?_dropLast,
      if_pos (by omega), hb]
  rw [hshift]

theorem vols_getElem_succ (close : List PVal) (t : ℕ) (a b : PVal)
    (hb : close[t]? = some b) (ha : close[t + 1]? = some a) :
    (vols close)[t + 1]? = some ((nplog (a.div b)).pabs) := by
  unfold vols
  rw [List.getElem?_map, logReturns_getElem_succ close t a b hb ha]
  rfl

theorem multipliers_getElem_succ (close : List PVal) (t : ℕ) (a b : PVal)
    (hb : close[t]? = some b) (ha : close[t + 1]? = some a) :
    (multipliers close)[t + 1]?
      = some ((((nplog (a.div b)).pabs).div (avgVol close)).proundTo 2) := by
  unfold multipliers
  rw [List.getElem?_map, vols_getElem_succ close t a b hb ha]
  rfl

/-- Formalisation of claim C2 exactly as stated: in any successful Feature
Extractor result, the log-return, volatility and multiplier columns are null
at index 0 and non-null at every index t+1 at which the previous close is
non-null and non-zero. -/
def spec_claim_C2 : Prop :=
  ∀ (df : Frame) (close : List PVal) (g : Frame) (msgs : List String),
    df.getCol "Adj Close" = some close →
    calculate_volatility (some df) = .ok (some g, msgs) →
    (∀ lr, g.getCol "Log_Returns" = some lr →
      (close ≠ [] → lr[0]? = some PVal.nan) ∧
      (∀ (t : ℕ) (b : ℝ), close[t]? = some (.val b) → b ≠ 0 →
        t + 1 < close.length → ∃ x, lr[t + 1]? = some x ∧ x.isNA = false)) ∧
    (∀ vl, g.getCol "Volatility" = some vl →
      (close ≠ [] → vl[0]? = some PVal.nan) ∧
      (∀ (t : ℕ) (b : ℝ), close[t]? = some (.val b) → b ≠ 0 →
        t + 1 < close.length → ∃ x, vl[t + 1]? = some x ∧ x.isNA = false)) ∧
    (∀ vm, g.getCol "Volatility_Multiplier" = some vm →
      (close ≠ [] → vm[0]? = some PVal.nan) ∧
      (∀ (t : ℕ) (b : ℝ), close[t]? = some (.val b) → b ≠ 0 →
        t + 1 < close.length → ∃ x, vm[t + 1]? = some x ∧ x.isNA = false))

theorem logReturns_C2cex :
    logReturns [PVal.val 1, PVal.val 1, PVal.nan]
      = [PVal.nan, PVal.val 0, PVal.nan] := by
  norm_num [logReturns, PVal.div, nplog, Real.log_one]

theorem avgVol_C2cex : avgVol [PVal.val 1, PVal.val 1, PVal.nan] = PVal.val 0 := by
  have hv : vols [PVal.val 1, PVal.val 1, PVal.nan]
      = [PVal.nan, PVal.val 0, PVal.nan] := by
    rw [vols, logReturns_C2cex]
    norm_num [PVal.pabs]
  rw [avgVol, hv]
  norm_num [pmean, PVal.isNA, PVal.add, PVal.div]

/-- C2 counterexample: on the series [1, 1, NaN] the previous close at t = 1
is 1 (non-null, non-zero), yet the multiplier at index 1 is NaN, because
every defined log return is zero and the multiplier divides 0 by the zero
average volatility; likewise the previous close at t = 2 is non-null and
non-zero yet the log return at index 2 is NaN (the close itself is NaN). -/
theorem C2_counterexample : ¬ spec_claim_C2 := by
  intro h
  have hcol : (⟨[0, 1, 2], [("Adj Close", [PVal.val 1, PVal.val 1, PVal.nan])]⟩ :
      Frame).getCol "Adj Close" = some [PVal.val 1, PVal.val 1, PVal.nan] := rfl
  have hcalc := calculate_volatility_some
    ⟨[0, 1, 2], [("Adj Close", [PVal.val 1, PVal.val 1, PVal.nan])]⟩
    [PVal.val 1, PVal.val 1, PVal.nan] rfl hcol
  obtain ⟨-, -, hVM⟩ := h _ _ _ _ hcol hcalc
  obtain ⟨-, hdef⟩ := hVM _ (calcVolAug_getCol_new _ _).2.2.2
  obtain ⟨x, hx, hxna⟩ := hdef 0 1 rfl one_ne_zero (by decide)
  have hm : (multipliers [PVal.val 1, PVal.val 1, PVal.nan])[0 + 1]?
      = some PVal.nan := by
    rw [multipliers_getElem_succ _ 0 (PVal.val 1) (PVal.val 1) rfl rfl, avgVol_C2cex]
    norm_num [PVal.div, nplog, PVal.pabs, Real.log_one, PVal.proundTo]
  rw [hx] at hm
  cases hm
  cases hxna

/-- C2 (corrected): the all-three-defined part of the claim fails — the
multiplier is NaN whenever the average volatility is zero (all defined
returns zero) and the log return is NaN when the current close is NaN or
the price ratio non-positive.  Amended claim: all three columns are null at
index 0; at every index t+1 where both closes are non-null, the previous one
non-zero and the ratio positive, the log return and volatility are defined;
and the multiplier is also defined provided the average volatility is
non-null and non-zero. -/
theorem C2_amended :
    ∀ (df : Frame) (close : List PVal),
      df.isEmpty = false →
      df.getCol "Adj Close" = some close →
      calculate_volatility (some df) = .ok (some (calcVolAug df close), []) ∧
      (calcVolAug df close).getCol "Log_Returns" = some (logReturns close) ∧
      (calcVolAug df close).getCol "Volatility" = some (vols close) ∧
      (calcVolAug df close).getCol "Volatility_Multiplier"
        = some (multipliers close) ∧
      (∀ c rest, close = c :: rest →
        (logReturns close)[0]? = some PVal.nan ∧
        (vols close)[0]? = some PVal.nan ∧
        (multipliers close)[0]? = some PVal.nan) ∧
      (∀ (t : ℕ) (a b : ℝ), close[t]? = some (.val b) → b ≠ 0 →
        close[t + 1]? = some (.val a) → 0 < a / b →
        (logReturns close)[t + 1]? = some (.val (Real.log (a / b))) ∧
        (vols close)[t + 1]? = some (.val |Real.log (a / b)|) ∧
        (avgVol close ≠ .nan → avgVol close ≠ .val 0 →
          ∃ r : ℝ, (multipliers close)[t + 1]? = some (.val r))) := by
  intro df close hne hcol
  refine ⟨calculate_volatility_some df close hne hcol,
    (calcVolAug_getCol_new df close).1,
    (calcVolAug_getCol_new df close).2.1,
    (calcVolAug_getCol_new df close).2.2.2, ?_, ?_⟩
  · rintro c rest rfl
    exact ⟨logReturns_zero c rest, vols_zero c rest, multipliers_zero c rest⟩
  · intro t a b hb hbne ha hpos
    have hdiv : (PVal.val a).div (PVal.val b) = .val (a / b) := by
      simp [PVal.div, hbne]
    have hlog : nplog ((PVal.val a).div (PVal.val b)) = .val (Real.log (a / b)) := by
      rw [hdiv]
      simp [nplog, hpos]
    refine ⟨?_, ?_, ?_⟩
    · rw [logReturns_getElem_succ close t _ _ hb ha, hlog]
    · rw [vols_getElem_succ close t _ _ hb ha, hlog]
      rfl
    · intro hnan hzero
      rw [multipliers_getElem_succ close t _ _ hb ha, hlog]
      cases havg : avgVol close with
      | nan => exact absurd havg hnan
      | pinf =>
        exact ⟨roundReal 2 0, by simp [PVal.pabs, PVal.div, PVal.proundTo]⟩
      | ninf =>
        exact ⟨roundReal 2 0, by simp [PVal.pabs, PVal.div, PVal.proundTo]⟩
      | val w =>
        have hw : w ≠ 0 := fun hw0 => hzero (by rw [havg, hw0])
        exact ⟨roundReal 2 (|Real.log (a / b)| / w),
          by simp [PVal.pabs, PVal.div, hw, PVal.proundTo]⟩

theorem avgVol_C2wit : avgVol [PVal.val 1, PVal.val 2]
    = PVal.val ((0 + |Real.log (2 / 1)|) / 1) := by
  have hlr : logReturns [PVal.val 1, PVal.val 2]
      = [PVal.nan, PVal.val (Real.log (2 / 1))] := by
    norm_num [logReturns, PVal.div, nplog]
  have hv : vols [PVal.val 1, PVal.val 2]
      = [PVal.nan, PVal.val |Real.log (2 / 1)|] := by
    rw [vols, hlr]
    rfl
  rw [avgVol, hv]
  norm_num [pmean, PVal.isNA, PVal.add, PVal.div]

/-- Witness for C2 (amended) on the two-row series [1, 2]. -/
theorem C2_amended_witness :
    (logReturns [PVal.val 1, PVal.val 2])[0]? = some PVal.nan ∧
    (logReturns [PVal.val 1, PVal.val 2])[0 + 1]?
      = some (.val (Real.log ((2 : ℝ) / 1))) ∧
    ∃ r : ℝ, (multipliers [PVal.val 1, PVal.val 2])[0 + 1]? = some (.val r) := by
  obtain ⟨-, -, -, -, hzero, hsucc⟩ := C2_amended
    ⟨[0, 1], [("Adj Close", [PVal.val 1, PVal.val 2])]⟩
    [PVal.val 1, PVal.val 2] rfl rfl
  obtain ⟨hlr, -, hvm⟩ := hsucc 0 2 1 rfl one_ne_zero rfl (by norm_num)
  refine ⟨(hzero _ _ rfl).1, hlr, hvm ?_ ?_⟩
  · rw [avgVol_C2wit]
    exact fun hc => PVal.noConfusion hc
  · rw [avgVol_C2wit]
    intro hc
    have heq : ((0 + |Real.log (2 / 1)|) / 1 : ℝ) = 0 := by
      injection hc
    have hpos : 0 < Real.log 2 := Real.log_pos (by norm_num)
    rw [abs_of_pos (by norm_num; exact hpos)] at heq
    norm_num at heq

theorem logReturns_replicate (m : ℕ) (c : ℝ) (hc : c ≠ 0) :
    logReturns (List.replicate (m + 1) (.val c))
      = .nan :: List.replicate m (.val 0) := by
  have hdl : (List.replicate (m + 1) (PVal.val c)).dropLast
      = List.replicate m (PVal.val c) := by
    rw [List.replicate_succ', List.dropLast_concat]
  unfold logReturns
  rw [hdl, List.replicate_succ, List.zipWith_cons_cons, List.zipWith_replicate']
  have h1 : nplog ((PVal.val c).div PVal.nan) = PVal.nan := by
    rw [PVal.div_nan]
    rfl
  have h2 : nplog ((PVal.val c).div (PVal.val c)) = PVal.val 0 := by
    simp [PVal.div, hc, div_self hc, nplog, Real.log_one]
  rw [h1, h2]

theorem vols_replicate (m : ℕ) (c : ℝ) (hc : c ≠ 0) :
    vols (List.replicate (m + 1) (.val c)) = .nan :: List.replicate m (.val 0) := by
  rw [vols, logReturns_replicate m c hc]
  simp [PVal.pabs, List.map_replicate]

theorem foldl_add_replicate_zero (m : ℕ) :
    (List.replicate m (PVal.val 0)).foldl PVal.add (PVal.val 0) = PVal.val 0 := by
  induction m with
  | zero => rfl
  | succ k ih =>
    rw [List.replicate_succ, List.foldl_cons,
      show PVal.add (PVal.val 0) (PVal.val 0) = PVal.val 0 by simp [PVal.add]]
    exact ih

theorem avgVol_replicate (m : ℕ) (c : ℝ) (hm : 1 ≤ m) (hc : c ≠ 0) :
    avgVol (List.replicate (m + 1) (.val c)) = .val 0 := by
  rw [avgVol, vols_replicate m c hc]
  have hf : List.filter (fun x => !x.isNA) (PVal.nan :: List.replicate m (PVal.val 0))
      = List.replicate m (PVal.val 0) := by
    rw [List.filter_cons_of_neg (by simp [PVal.isNA])]
    exact List.filter_eq_self.mpr
      (fun a ha => by rw [List.eq_of_mem_replicate ha]; rfl)
  rw [pmean]
  simp only [hf]
  rw [if_neg (by
    cases m with
    | zero => omega
    | succ k => simp [List.replicate_succ])]
  rw [foldl_add_replicate_zero, List.length_replicate]
  have hmne : ((m : ℝ)) ≠ 0 := Nat.cast_ne_zero.mpr (by omega)
  simp [PVal.div, hmne]

theorem multipliers_replicate (m : ℕ) (c : ℝ) (hm : 1 ≤ m) (hc : c ≠ 0) :
    multipliers (List.replicate (m + 1) (.val c))
      = List.replicate (m + 1) PVal.nan := by
  rw [multipliers, vols_replicate m c hc, avgVol_replicate m c hm hc]
  rw [List.map_cons, List.map_replicate]
  have h1 : (PVal.nan.div (PVal.val 0)).proundTo 2 = PVal.nan := by
    rw [PVal.nan_div]
    rfl
  have h2 : ((PVal.val 0).div (PVal.val 0)).proundTo 2 = PVal.nan := by
    norm_num [PVal.div, PVal.proundTo]
  rw [h1, h2, List.replicate_succ]

/-- Formalisation of claim C10 exactly as stated: for every non-empty input
series whose closes all equal one value, the Feature Extractor returns a
table whose volatility entries are 0 from index 1 on, whose average
volatility is 0, and whose multiplier is NaN at every row. -/
def spec_claim_C10 : Prop :=
  ∀ (df : Frame) (n : ℕ) (c : ℝ),
    1 ≤ n → df.isEmpty = false →
    df.getCol "Adj Close" = some (List.replicate n (.val c)) →
    ∃ g msgs, calculate_volatility (some df) = .ok (some g, msgs) ∧
      (∀ vl, g.getCol "Volatility" = some vl →
        ∀ t, 1 ≤ t → t < n → vl[t]? = some (.val 0)) ∧
      (∀ av, g.getCol "Average_Volatility" = some av →
        ∀ t, t < av.length → av[t]? = some (.val 0)) ∧
      (∀ vm, g.getCol "Volatility_Multiplier" = some vm →
        ∀ t, t < n → vm[t]? = some PVal.nan)

theorem vols_C10cex : vols [PVal.val 0, PVal.val 0] = [PVal.nan, PVal.nan] := by
  have hlr : logReturns [PVal.val 0, PVal.val 0] = [PVal.nan, PVal.nan] := by
    norm_num [logReturns, PVal.div, PVal.div_nan, nplog]
  rw [vols, hlr]
  rfl

/-- C10 counterexample: the claim fails at the all-zero constant series
(0/0 price ratios make the volatility itself NaN, not 0); moreover at a
one-row constant series the average volatility is NaN (mean of no defined
values), not 0, which the second conjunct records. -/
theorem C10_counterexample :
    ¬ spec_claim_C10 ∧ avgVol [PVal.val 1] = PVal.nan := by
  constructor
  · intro h
    have hcol : (⟨[0, 1], [("Adj Close", [PVal.val 0, PVal.val 0])]⟩ :
        Frame).getCol "Adj Close" = some (List.replicate 2 (.val (0 : ℝ))) := rfl
    obtain ⟨g, msgs, hcalc, hvol, -, -⟩ :=
      h ⟨[0, 1], [("Adj Close", [PVal.val 0, PVal.val 0])]⟩ 2 0
        (by omega) rfl hcol
    have hcalc2 := calculate_volatility_some
      ⟨[0, 1], [("Adj Close", [PVal.val 0, PVal.val 0])]⟩
      (List.replicate 2 (.val (0 : ℝ))) rfl hcol
    rw [hcalc2] at hcalc
    injection hcalc with hpair
    injection hpair with hg hmsgs
    have hgeq : g = calcVolAug
        ⟨[0, 1], [("Adj Close", [PVal.val 0, PVal.val 0])]⟩
        (List.replicate 2 (.val (0 : ℝ))) := (Option.some.inj hg).symm
    subst hgeq
    have hvl := hvol _ ((calcVolAug_getCol_new _ _).2.1) 1 (by omega) (by omega)
    have hvv : (vols (List.replicate 2 (.val (0 : ℝ))))[1]? = some PVal.nan := by
      rw [show (List.replicate 2 (.val (0 : ℝ))) = [PVal.val 0, PVal.val 0] from rfl,
        vols_C10cex]
      rfl
    rw [hvv] at hvl
    injection hvl with hnan
    exact PVal.noConfusion hnan
  · simp [avgVol, vols, logReturns, pmean, PVal.div_nan, nplog, PVal.pabs, PVal.isNA]

/-- C10 (corrected): the claim holds only for constant series of a non-zero
value with at least two rows — at the all-zero series the volatility entries
are NaN (0/0 ratio), and at a one-row series the average volatility is NaN
(mean of an empty set).  Amended claim: for every series of n >= 2 closes all
equal to one non-zero value, the call returns without raising; the
volatility column is NaN then 0 everywhere, the average volatility is 0 (so
the broadcast column is all zeros), and the multiplier column (0/0 at every
row) is NaN at every row, including the rows whose previous close is
non-null and non-zero. -/
theorem C10_amended :
    ∀ (df : Frame) (n : ℕ) (c : ℝ),
      2 ≤ n → c ≠ 0 → df.isEmpty = false →
      df.getCol "Adj Close" = some (List.replicate n (.val c)) →
      calculate_volatility (some df)
        = .ok (some (calcVolAug df (List.replicate n (.val c))), []) ∧
      (calcVolAug df (List.replicate n (.val c))).getCol "Volatility"
        = some (.nan :: List.replicate (n - 1) (.val 0)) ∧
      avgVol (List.replicate n (.val c)) = .val 0 ∧
      (calcVolAug df (List.replicate n (.val c))).getCol "Average_Volatility"
        = some (List.replicate df.nrows (.val 0)) ∧
      (calcVolAug df (List.replicate n (.val c))).getCol "Volatility_Multiplier"
        = some (List.replicate n PVal.nan) := by
  intro df n c hn hc hne hcol
  obtain ⟨m, rfl⟩ : ∃ m, n = m + 1 := ⟨n - 1, by omega⟩
  have hm : 1 ≤ m := by omega
  refine ⟨calculate_volatility_some df _ hne hcol, ?_, avgVol_replicate m c hm hc, ?_, ?_⟩
  · rw [(calcVolAug_getCol_new df _).2.1, vols_replicate m c hc, Nat.add_sub_cancel]
  · rw [(calcVolAug_getCol_new df _).2.2.1, avgVol_replicate m c hm hc]
  · rw [(calcVolAug_getCol_new df _).2.2.2, multipliers_replicate m c hm hc]

/-- Witness for C10 (amended) at the two-row constant series [1, 1]. -/
theorem C10_amended_witness :
    calculate_volatility
        (some ⟨[0, 1], [("Adj Close", [PVal.val 1, PVal.val 1])]⟩)
      = .ok (some (calcVolAug
          ⟨[0, 1], [("Adj Close", [PVal.val 1, PVal.val 1])]⟩
          (List.replicate 2 (.val (1 : ℝ)))), []) ∧
    avgVol (List.replicate 2 (.val (1 : ℝ))) = .val 0 ∧
    (calcVolAug ⟨[0, 1], [("Adj Close", [PVal.val 1, PVal.val 1])]⟩
        (List.replicate 2 (.val (1 : ℝ)))).getCol "Volatility_Multiplier"
      = some (List.replicate 2 PVal.nan) := by
  obtain ⟨ha, -, hb, -, hc⟩ := C10_amended
    ⟨[0, 1], [("Adj Close", [PVal.val 1, PVal.val 1])]⟩ 2 1
    (by omega) one_ne_zero rfl rfl
  exact ⟨ha, hb, hc⟩

theorem log_101_100_bounds :
    (199/20000 : ℝ) - 1/990000 ≤ Real.log (101/100) ∧
    Real.log (101/100) ≤ 199/20000 + 1/990000 := by
  have hx : |(-(1/100) : ℝ)| < 1 := by rw [abs_neg, abs_of_pos] <;> norm_num
  have h := Real.abs_log_sub_add_sum_range_le hx 2
  have hs : (∑ i ∈ Finset.range 2, (-(1/100) : ℝ) ^ (i + 1) / (i + 1))
      = -(199/20000) := by
    rw [Finset.sum_range_succ, Finset.sum_range_one]
    norm_num
  have h1 : (1 : ℝ) - (-(1/100)) = 101/100 := by norm_num
  have h2 : |(-(1/100) : ℝ)| ^ (2 + 1) / (1 - |(-(1/100) : ℝ)|) = 1/990000 := by
    rw [abs_neg, abs_of_pos] <;> norm_num
  rw [hs, h1, h2] at h
  have h3 := abs_le.mp h
  constructor <;> linarith [h3.1, h3.2]

theorem log_202_201_bounds :
    (401/80802 : ℝ) - 1/8080200 ≤ Real.log (202/201) ∧
    Real.log (202/201) ≤ 401/80802 + 1/8080200 := by
  have hx : |(-(1/201) : ℝ)| < 1 := by rw [abs_neg, abs_of_pos] <;> norm_num
  have h := Real.abs_log_sub_add_sum_range_le hx 2
  have hs : (∑ i ∈ Finset.range 2, (-(1/201) : ℝ) ^ (i + 1) / (i + 1))
      = -(401/80802) := by
    rw [Finset.sum_range_succ, Finset.sum_range_one]
    norm_num
  have h1 : (1 : ℝ) - (-(1/201)) = 202/201 := by norm_num
  have h2 : |(-(1/201) : ℝ)| ^ (2 + 1) / (1 - |(-(1/201) : ℝ)|) = 1/8080200 := by
    rw [abs_neg, abs_of_pos] <;> norm_num
  rw [hs, h1, h2] at h
  have h3 := abs_le.mp h
  constructor <;> linarith [h3.1, h3.2]

theorem log_swap_C3 : Real.log ((201/2 : ℝ)/101) = -Real.log (202/201) := by
  rw [show ((201/2 : ℝ))/101 = ((202 : ℝ)/201)⁻¹ by norm_num, Real.log_inv]

theorem logReturns_C3 :
    logReturns [PVal.val 100, PVal.val 101, PVal.val (201/2)]
      = [PVal.nan, PVal.val (Real.log (101/100)),
         PVal.val (-Real.log (202/201))] := by
  have h : logReturns [PVal.val 100, PVal.val 101, PVal.val (201/2)]
      = [PVal.nan, PVal.val (Real.log (101/100)),
         PVal.val (Real.log ((201/2)/101))] := by
    norm_num [logReturns, PVal.div, nplog]
  rw [h, log_swap_C3]

theorem vols_C3 :
    vols [PVal.val 100, PVal.val 101, PVal.val (201/2)]
      = [PVal.nan, PVal.val (Real.log (101/100)),
         PVal.val (Real.log (202/201))] := by
  have hL1pos : 0 < Real.log (101/100) := by
    have hc : (0:ℝ) < 199/20000 - 1/990000 := by norm_num
    linarith [log_101_100_bounds.1]
  have hL2pos : 0 < Real.log (202/201) := by
    have hc : (0:ℝ) < 401/80802 - 1/8080200 := by norm_num
    linarith [log_202_201_bounds.1]
  rw [vols, logReturns_C3]
  simp [PVal.pabs, abs_of_pos hL1pos, abs_of_pos hL2pos]

theorem avgVol_C3 :
    avgVol [PVal.val 100, PVal.val 101, PVal.val (201/2)]
      = PVal.val ((Real.log (101/100) + Real.log (202/201)) / 2) := by
  rw [avgVol, vols_C3]
  norm_num [pmean, PVal.isNA, PVal.add, PVal.div]

theorem multipliers_C3 :
    multipliers [PVal.val 100, PVal.val 101, PVal.val (201/2)]
      = [PVal.nan,
         PVal.val (roundReal 2 (Real.log (101/100)
           / ((Real.log (101/100) + Real.log (202/201)) / 2))),
         PVal.val (roundReal 2 (Real.log (202/201)
           / ((Real.log (101/100) + Real.log (202/201)) / 2)))] := by
  have hL1pos : 0 < Real.log (101/100) := by
    have hc : (0:ℝ) < 199/20000 - 1/990000 := by norm_num
    linarith [log_101_100_bounds.1]
  have hL2pos : 0 < Real.log (202/201) := by
    have hc : (0:ℝ) < 401/80802 - 1/8080200 := by norm_num
    linarith [log_202_201_bounds.1]
  have hAne : ((Real.log (101/100) + Real.log (202/201)) / 2 : ℝ) ≠ 0 := by
    have : (0:ℝ) < (Real.log (101/100) + Real.log (202/201)) / 2 := by linarith
    exact this.ne'
  rw [multipliers, vols_C3, avgVol_C3]
  simp [PVal.nan_div, PVal.div, PVal.proundTo, hAne]

theorem mult1_C3 :
    roundReal 2 (Real.log (101/100)
      / ((Real.log (101/100) + Real.log (202/201)) / 2)) = 133/100 := by
  have hb1 := log_101_100_bounds
  have hb2 := log_202_201_bounds
  have hApos : (0:ℝ) < (Real.log (101/100) + Real.log (202/201)) / 2 := by
    have hc1 : (0:ℝ) < 199/20000 - 1/990000 := by norm_num
    have hc2 : (0:ℝ) < 401/80802 - 1/8080200 := by norm_num
    linarith [hb1.1, hb2.1]
  rw [roundReal]
  have h102 : ((10:ℝ)^(2:ℕ)) = 100 := by norm_num
  have hrn : rne (Real.log (101/100)
      / ((Real.log (101/100) + Real.log (202/201)) / 2) * 10 ^ 2) = 133 := by
    apply rne_eq_of_lt
    · rw [h102, div_mul_eq_mul_div, lt_div_iff₀ hApos]
      push_cast
      linarith [hb1.1, hb1.2, hb2.1, hb2.2]
    · rw [h102, div_mul_eq_mul_div, div_lt_iff₀ hApos]
      push_cast
      linarith [hb1.1, hb1.2, hb2.1, hb2.2]
  rw [hrn]
  norm_num

theorem mult2_C3 :
    roundReal 2 (Real.log (202/201)
      / ((Real.log (101/100) + Real.log (202/201)) / 2)) = 67/100 := by
  have hb1 := log_101_100_bounds
  have hb2 := log_202_201_bounds
  have hApos : (0:ℝ) < (Real.log (101/100) + Real.log (202/201)) / 2 := by
    have hc1 : (0:ℝ) < 199/20000 - 1/990000 := by norm_num
    have hc2 : (0:ℝ) < 401/80802 - 1/8080200 := by norm_num
    linarith [hb1.1, hb2.1]
  rw [roundReal]
  have h102 : ((10:ℝ)^(2:ℕ)) = 100 := by norm_num
  have hrn : rne (Real.log (202/201)
      / ((Real.log (101/100) + Real.log (202/201)) / 2) * 10 ^ 2) = 67 := by
    apply rne_eq_of_lt
    · rw [h102, div_mul_eq_mul_div, lt_div_iff₀ hApos]
      push_cast
      linarith [hb1.1, hb1.2, hb2.1, hb2.2]
    · rw [h102, div_mul_eq_mul_div, div_lt_iff₀ hApos]
      push_cast
      linarith [hb1.1, hb1.2, hb2.1, hb2.2]
  rw [hrn]
  norm_num

/-- C3 (confirmed): on the 3-row series with closes [100.0, 101.0, 100.5]
(100.5 written as 201/2), `calculate_volatility` succeeds and produces:
log returns [NaN, log(101/100), -log(202/201)], approximately
[null, 0.00995, -0.00497] within 1/100000; volatilities
[NaN, log(101/100), log(202/201)]; an average volatility equal to the mean
of only the two defined values, approximately 0.00746 within 1/100000; and
multipliers exactly [NaN, 1.33, 0.67] after rounding to two decimals. -/
theorem C3_end_to_end_example :
    calculate_volatility (some ⟨[0, 1, 2],
        [("Adj Close", [PVal.val 100, PVal.val 101, PVal.val (201/2)])]⟩)
      = .ok (some (calcVolAug
          ⟨[0, 1, 2], [("Adj Close", [PVal.val 100, PVal.val 101, PVal.val (201/2)])]⟩
          [PVal.val 100, PVal.val 101, PVal.val (201/2)]), []) ∧
    logReturns [PVal.val 100, PVal.val 101, PVal.val (201/2)]
      = [PVal.nan, PVal.val (Real.log (101/100)),
         PVal.val (-Real.log (202/201))] ∧
    |Real.log (101/100) - 0.00995| < 1/100000 ∧
    |(-Real.log (202/201)) - (-0.00497)| < 1/100000 ∧
    vols [PVal.val 100, PVal.val 101, PVal.val (201/2)]
      = [PVal.nan, PVal.val (Real.log (101/100)), PVal.val (Real.log (202/201))] ∧
    avgVol [PVal.val 100, PVal.val 101, PVal.val (201/2)]
      = PVal.val ((Real.log (101/100) + Real.log (202/201)) / 2) ∧
    |(Real.log (101/100) + Real.log (202/201)) / 2 - 0.00746| < 1/100000 ∧
    multipliers [PVal.val 100, PVal.val 101, PVal.val (201/2)]
      = [PVal.nan, PVal.val (133/100), PVal.val (67/100)] := by
  have hb1 := log_101_100_bounds
  have hb2 := log_202_201_bounds
  refine ⟨calculate_volatility_some _ _ rfl rfl, logReturns_C3, ?_, ?_, vols_C3,
    avgVol_C3, ?_, ?_⟩
  · rw [show (0.00995 : ℝ) = 199/20000 by norm_num, abs_lt]
    constructor <;> linarith [hb1.1, hb1.2]
  · rw [show (0.00497 : ℝ) = 497/100000 by norm_num, abs_lt]
    constructor <;> linarith [hb2.1, hb2.2]
  · rw [show (0.00746 : ℝ) = 373/50000 by norm_num, abs_lt]
    constructor <;> linarith [hb1.1, hb1.2, hb2.1, hb2.2]
  · rw [multipliers_C3, mult1_C3, mult2_C3]
